import Mathlib

/-
Verification of the telegram lead bot pipeline against its specification.

Shallow embedding of the relevant source modules:
  * Dedup      — Botparsing.py: _should_drop_duplicate (time-windowed duplicate cache)
  * Conn       — connection_manager.py: _calculate_delay, connect_with_retry
  * MQ         — message_queue.py: enqueue, dequeue, mark_failed over the queue table
  * AI         — ai_utils.py: _sanitize_result, apply_overrides;
                 ai_utils2.py: _finalize_classification_result, classify_text_with_ai
  * Routing    — Botparsing.py: confidence routing in process_message
  * Delivery   — delivery.py: per-subscriber gates in send_lead_to_users

Machine floats of the source are modelled as rationals; timestamps as
integers or naturals; the SQLite table as a list of rows.
-/

namespace Dedup

/-- State of the duplicate cache: `_recent_text_queue` (a deque of
(timestamp, normalized text) pairs, oldest first) and `_recent_text_cache`
(a dict from normalized text to last-seen timestamp, modelled as an
association list with unique keys). -/
structure DState where
  queue : List (ℤ × String)
  cache : List (String × ℤ)
deriving DecidableEq

/-- Lookup in the dict `_recent_text_cache` (`dict.get`). -/
def cacheGet (c : List (String × ℤ)) (k : String) : Option ℤ :=
  match c.find? (fun p => p.1 == k) with
  | some p => some p.2
  | none => none

/-- Dict assignment `cache[key] = value`: replace the binding if present,
append otherwise. -/
def cacheSet : List (String × ℤ) → String → ℤ → List (String × ℤ)
  | [], k, v => [(k, v)]
  | p :: rest, k, v => if p.1 = k then (k, v) :: rest else p :: cacheSet rest k v

/-- Dict removal `cache.pop(key, None)`. -/
def cachePop : List (String × ℤ) → String → List (String × ℤ)
  | [], _ => []
  | p :: rest, k => if p.1 = k then rest else p :: cachePop rest k

/-- Purge loop of `_should_drop_duplicate`: while the oldest queue entry has
timestamp at most the cutoff, pop it and drop the cache binding when it still
records exactly that timestamp (and that timestamp is expired). -/
def purgeExpired (cutoff : ℤ) :
    List (ℤ × String) → List (String × ℤ) → List (ℤ × String) × List (String × ℤ)
  | [], cache => ([], cache)
  | (ts, key) :: rest, cache =>
    if ts ≤ cutoff then
      let cache' :=
        match cacheGet cache key with
        | some cur => if cur ≤ cutoff ∧ cur = ts then cachePop cache key else cache
        | none => cache
      purgeExpired cutoff rest cache'
    else ((ts, key) :: rest, cache)

/-- Overflow trim of `_should_drop_duplicate`: pop `n` oldest queue entries,
removing each from the cache when the cache still records exactly its
timestamp. -/
def trimOverflow : ℕ → List (ℤ × String) → List (String × ℤ) →
    List (ℤ × String) × List (String × ℤ)
  | 0, q, c => (q, c)
  | _ + 1, [], c => ([], c)
  | n + 1, (ts, key) :: rest, c =>
    let c' :=
      match cacheGet c key with
      | some cur => if cur = ts then cachePop c key else c
      | none => c
    trimOverflow n rest c'

/-- Model of `_should_drop_duplicate(normalized_text)` from Botparsing.py,
with the module globals made explicit: `window` is DEDUP_WINDOW_SECONDS,
`maxCache` is MAX_DEDUP_CACHE, `now` is `time.time()`. Returns the
duplicate verdict together with the updated state. -/
def shouldDropDuplicate (window : ℤ) (maxCache : ℕ) (now : ℤ) (key : String)
    (st : DState) : Bool × DState :=
  if window ≤ 0 ∨ key = "" then (false, st)
  else
    let cutoff := now - window
    let pc := purgeExpired cutoff st.queue st.cache
    let lastSeen := cacheGet pc.2 key
    let isDup := match lastSeen with
      | some v => decide (cutoff ≤ v)
      | none => false
    let c2 := cacheSet pc.2 key now
    let q2 := pc.1 ++ [(now, key)]
    let qc :=
      if 0 < maxCache ∧ maxCache < q2.length then
        trimOverflow (q2.length - maxCache) q2 c2
      else (q2, c2)
    (isDup, ⟨qc.1, qc.2⟩)

end Dedup

namespace Conn

/-- Outcome of one connection attempt in `connect_with_retry`
(connection_manager.py): success, a timeout, a network error, an
authentication error, a flood-wait (rate limit) carrying the wait
duration, or any other exception. -/
inductive Outcome where
  | success
  | timeoutErr
  | netErr
  | authErr
  | floodWait (secs : ℚ)
  | otherErr
deriving DecidableEq

/-- Hard-coded retry configuration of ConnectionManager.__init__:
max_retries = 10, base_delay = 1.0, max_delay = 300.0. -/
structure Config where
  maxRetries : ℕ
  baseDelay : ℚ
  maxDelay : ℚ
deriving DecidableEq

/-- Default ConnectionManager configuration. -/
def defaultConfig : Config := ⟨10, 1, 300⟩

/-- Model of `_calculate_delay`: exponential backoff
`base_delay * 2 ^ min(retry_count - 1, 8)` capped at `max_delay`, plus
±25 percent jitter from the uniform draw `rand ∈ [0, 1]`, floored at 1. -/
def calculateDelay (cfg : Config) (retryCount : ℕ) (rand : ℚ) : ℚ :=
  if retryCount = 0 then 0
  else
    let d0 := cfg.baseDelay * 2 ^ min (retryCount - 1) 8
    let d1 := min d0 cfg.maxDelay
    let jitter := d1 * (1/4) * (rand - 1/2)
    max 1 (d1 + jitter)

/-- Result of a `connect_with_retry` run: whether it returned True, the
number of failed attempts consumed (the value of `retry_count` when the
loop ends; the source resets the counter to 0 right after a success), and
the sleeps performed in order (both flood-wait and backoff sleeps). -/
structure RunResult where
  connected : Bool
  retryCount : ℕ
  sleeps : List ℚ
deriving DecidableEq

/-- Loop body of `connect_with_retry`. `script n` is the outcome of the
attempt made while `retry_count = n`; `rand n` is the jitter draw used for
the backoff delay computed when `retry_count = n`. Fuel bounds the loop;
`connectWithRetry` supplies `maxRetries`, which is exact since every
iteration increments `retry_count`. -/
def connectGo (cfg : Config) (script : ℕ → Outcome) (rand : ℕ → ℚ) :
    ℕ → ℕ → List ℚ → RunResult
  | 0, rc, sl => ⟨false, rc, sl.reverse⟩
  | fuel + 1, rc, sl =>
    if rc < cfg.maxRetries then
      let continueWith : List ℚ → RunResult := fun sl1 =>
        let rc' := rc + 1
        let sl2 :=
          if rc' < cfg.maxRetries then calculateDelay cfg rc' (rand rc') :: sl1
          else sl1
        connectGo cfg script rand fuel rc' sl2
      match script rc with
      | .success => ⟨true, rc, sl.reverse⟩
      | .authErr =>
        if 3 < rc then ⟨false, rc, sl.reverse⟩ else continueWith sl
      | .floodWait secs => continueWith (secs :: sl)
      | _ => continueWith sl
    else ⟨false, rc, sl.reverse⟩

/-- Model of `connect_with_retry` from connection_manager.py. -/
def connectWithRetry (cfg : Config) (script : ℕ → Outcome) (rand : ℕ → ℚ) :
    RunResult :=
  connectGo cfg script rand cfg.maxRetries 0 []

end Conn

namespace MQ

/-- Row status in the queue table of message_queue.py. -/
inductive Status where
  | pending
  | processing
  | completed
  | failed
deriving DecidableEq

/-- Inbound event payload as enqueue serializes it. The dedup query reads
`json_extract(event, chat_id)` and `json_extract(event, id)`, which are
NULL when the corresponding key is absent, hence the Option fields; the
rest of the payload is opaque to the queue. -/
structure Event where
  chat_id : Option ℤ
  msg_id : Option ℤ
  rest : String
deriving DecidableEq

/-- Contents of the `event` TEXT NOT NULL column: either a serialized
payload (written by enqueue) or the error note written by mark_failed.
NULL is not representable, matching the NOT NULL constraint of the
schema created by init_db. -/
inductive EventCol where
  | payload (e : Event)
  | errorNote (msg : String)
deriving DecidableEq

/-- The value of `json_extract(event, chat_id)` on a stored column. -/
def colChatId : EventCol → Option ℤ
  | .payload e => e.chat_id
  | .errorNote _ => none

/-- The value of `json_extract(event, id)` on a stored column. -/
def colMsgId : EventCol → Option ℤ
  | .payload e => e.msg_id
  | .errorNote _ => none

/-- One row of the queue table. -/
structure QueueItem where
  id : ℕ
  event : EventCol
  status : Status
  priority : ℤ
  created_at : ℕ
  processed_at : Option ℕ
deriving DecidableEq

/-- The queue table plus the AUTOINCREMENT counter. -/
structure QState where
  items : List QueueItem
  nextId : ℕ
deriving DecidableEq

/-- SELECT COUNT(*) FROM queue WHERE status = pending. -/
def pendingCount (s : QState) : ℕ :=
  (s.items.filter (fun it => it.status = .pending)).length

/-- The dedup probe of enqueue: is some pending row storing the same
(chat_id, id) pair? SQL equality with NULL never holds, so a row whose
payload lacks either key cannot match. -/
def dupPending (s : QState) (c m : ℤ) : Bool :=
  s.items.any (fun it =>
    it.status = .pending ∧ colChatId it.event = some c ∧ colMsgId it.event = some m)

/-- Model of `enqueue(event_dict, priority)` (success path, the backing
store not contended): reject when the pending count has reached
`maxSize` (MAX_QUEUE_SIZE); reject a duplicate pending (chat_id, id) pair
when both keys are present; otherwise insert one new pending row stamped
`now` (CURRENT_TIMESTAMP) and return True. -/
def enqueueQ (maxSize : ℕ) (now : ℕ) (ev : Event) (prio : ℤ) (s : QState) :
    Bool × QState :=
  if maxSize ≤ pendingCount s then (false, s)
  else
    let dup :=
      match ev.chat_id, ev.msg_id with
      | some c, some m => dupPending s c m
      | _, _ => false
    if dup then (false, s)
    else
      (true,
        { items := s.items ++ [⟨s.nextId, .payload ev, .pending, prio, now, none⟩],
          nextId := s.nextId + 1 })

/-- The later of two rows under ORDER BY priority DESC, created_at ASC:
keep `x` (the earlier row in table order) unless `y` sorts strictly
before it. -/
def selBetter (x y : QueueItem) : QueueItem :=
  if x.priority < y.priority ∨ (y.priority = x.priority ∧ y.created_at < x.created_at)
  then y else x

/-- SELECT id, event FROM queue WHERE status = pending
ORDER BY priority DESC, created_at ASC LIMIT 1 — the selected row, or
none when no row is pending. Rows tied on (priority, created_at) resolve
to the earliest in table order. -/
def selectPending : List QueueItem → Option QueueItem
  | [] => none
  | x :: xs =>
    match selectPending xs with
    | none => if x.status = .pending then some x else none
    | some y => if x.status = .pending then some (selBetter x y) else some y

/-- Model of `dequeue()` (the RETURNING path; the fallback path has the
same visible semantics): claim the selected pending row by setting it to
processing with `processed_at = now`, returning its id and event column. -/
def dequeueQ (now : ℕ) (s : QState) : Option (ℕ × EventCol) × QState :=
  match selectPending s.items with
  | none => (none, s)
  | some it =>
    (some (it.id, it.event),
      { s with items := s.items.map (fun j =>
          if j.id = it.id then { j with status := .processing, processed_at := some now }
          else j) })

/-- Ids handed out by a sequence of dequeue calls at the given claim
timestamps. -/
def dequeueRun : List ℕ → QState → List ℕ
  | [], _ => []
  | t :: ts, s =>
    match dequeueQ t s with
    | (none, s') => dequeueRun ts s'
    | (some (i, _), s') => i :: dequeueRun ts s'

/-- Model of `mark_failed(event_id, error)`. Python builds
`json.dumps(dict(error=error)) if error else None`, so an empty or absent
error yields the SQL NULL parameter; but the schema declares
`event TEXT NOT NULL`, so the UPDATE then fails with an integrity error
whenever a row matches, leaving the table unchanged. -/
def markFailed (now : ℕ) (eventId : ℕ) (error : Option String) (s : QState) :
    Except String QState :=
  let eventData : Option EventCol :=
    match error with
    | some e => if e = "" then none else some (.errorNote e)
    | none => none
  match eventData with
  | some col =>
    .ok { s with items := s.items.map (fun it =>
        if it.id = eventId then
          { it with status := .failed, processed_at := some now, event := col }
        else it) }
  | none =>
    if s.items.any (fun it => it.id = eventId) then
      .error "NOT NULL constraint failed: queue.event"
    else .ok s

end MQ

namespace AI

/-- JSON-ish value as found in a raw provider result dict. -/
inductive JVal where
  | jnull
  | jbool (b : Bool)
  | jnum (q : ℚ)
  | jstr (s : String)
deriving DecidableEq

/-- Digit-string value: fold of decimal digits. -/
def natOfDigits (cs : List Char) : ℕ :=
  cs.foldl (fun n c => 10 * n + (c.toNat - 48)) 0

/-- Parse an unsigned decimal literal (digits, optionally with a fractional
part), as accepted by the float() coercion on the strings this code meets.
Returns none when the characters are not such a literal. -/
def parseUnsigned (cs : List Char) : Option ℚ :=
  let sp := cs.span Char.isDigit
  match sp.2 with
  | [] => if sp.1.isEmpty then none else some (natOfDigits sp.1)
  | '.' :: rest =>
    if rest.all Char.isDigit ∧ ¬(sp.1.isEmpty ∧ rest.isEmpty) then
      some ((natOfDigits sp.1 : ℚ) + (natOfDigits rest : ℚ) / 10 ^ rest.length)
    else none
  | _ => none

/-- Strip leading and trailing whitespace from a character list. -/
def stripWs (cs : List Char) : List Char :=
  ((cs.dropWhile Char.isWhitespace).reverse.dropWhile Char.isWhitespace).reverse

/-- Model of the coercion `float(confidence)` on a JSON value: numbers pass
through, booleans become 0/1, strings are parsed as optionally signed
decimal literals (after stripping surrounding whitespace), everything
else raises — i.e. yields none. -/
def pyFloat : JVal → Option ℚ
  | .jnum q => some q
  | .jbool b => some (if b then 1 else 0)
  | .jnull => none
  | .jstr s =>
    match stripWs s.data with
    | '+' :: rest => parseUnsigned rest
    | '-' :: rest => (parseUnsigned rest).map Neg.neg
    | cs => parseUnsigned cs

/-- Python slicing `s[:n]` (by code points). -/
def pyTake (n : ℕ) (s : String) : String := String.mk (s.data.take n)

/-- Decide whether one character list occurs contiguously in another. -/
def isInfixOfL (needle : List Char) : List Char → Bool
  | [] => needle.isEmpty
  | c :: rest => needle.isPrefixOf (c :: rest) || isInfixOfL needle rest

/-- Substring test, Python `needle in hay`. -/
def containsSub (hay needle : String) : Bool := isInfixOfL needle.data hay.data

/-- Non-overlapping occurrence count, bounded by fuel. -/
def countSubGo (needle : List Char) : ℕ → List Char → ℕ
  | 0, _ => 0
  | _ + 1, [] => 0
  | fuel + 1, c :: rest =>
    if needle.isPrefixOf (c :: rest) then
      1 + countSubGo needle fuel (rest.drop (needle.length - 1))
    else countSubGo needle fuel rest

/-- Python `hay.count(needle)` for a nonempty needle: non-overlapping
occurrences, scanning left to right. -/
def countSub (hay needle : String) : ℕ :=
  countSubGo needle.data hay.data.length hay.data

/-- Python `any(w in lower for w in terms)`. -/
def anyIn (lower : String) (terms : List String) : Bool :=
  terms.any (fun t => containsSub lower t)

/-- Python `opt or default` on an optional string: falsy (absent or empty)
falls back to the default. -/
def pyOr (o : Option String) (d : String) : String :=
  match o with
  | some c => if c = "" then d else c
  | none => d

/-- Raw provider result dict before sanitization; absent keys are none. -/
structure RawResult where
  relevant : Option JVal := none
  category : Option String := none
  subcategory : Option String := none
  region : Option String := none
  explanation : Option String := none
  confidence : Option JVal := none
deriving DecidableEq

/-- Truthiness `bool(x)` of an optional JSON value (`result.get(key)`). -/
def pyTruthy : Option JVal → Bool
  | none => false
  | some .jnull => false
  | some (.jbool b) => b
  | some (.jnum q) => q ≠ 0
  | some (.jstr s) => s ≠ ""

/-- CONF_THRESHOLD = 0.79 of ai_utils.py. -/
def CONF_THRESHOLD : ℚ := 79 / 100

/-- Output of `_sanitize_result` in ai_utils.py. The relevant key keeps the
raw value (the code only tests `relevant is True`, it does not coerce). -/
structure SanResult where
  relevant : JVal
  category : Option String
  subcategory : Option String
  region : Option String
  explanation : String
  confidence : ℚ
  accepted : Bool
  borderline : Bool
deriving DecidableEq

/-- Model of `_sanitize_result(result)` from ai_utils.py: default missing
keys, coerce confidence to a float clamped into [0, 1] (0.0 when the
coercion raises), truncate the explanation to 67 characters plus an
ellipsis when longer than 70, and derive the accepted and borderline
flags from `relevant is True` and CONF_THRESHOLD. -/
def sanitizeResult (r : RawResult) : SanResult :=
  let relevant := r.relevant.getD (.jbool false)
  let explanation0 := r.explanation.getD ""
  let conf0 := (pyFloat (r.confidence.getD (.jnum 0))).getD 0
  let confidence := max 0 (min 1 conf0)
  let explanation :=
    if 70 < explanation0.length then pyTake 67 explanation0 ++ "..." else explanation0
  let accepted := relevant = JVal.jbool true ∧ CONF_THRESHOLD ≤ confidence
  let borderline := relevant = JVal.jbool true ∧ confidence < CONF_THRESHOLD
  { relevant, category := r.category, subcategory := r.subcategory,
    region := r.region, explanation, confidence, accepted, borderline }

/-- Classification dict as built by `_finalize_classification_result` in
ai_utils2.py and transformed by `apply_overrides`. -/
structure Cla where
  relevant : Bool
  category : Option String
  subcategory : Option String
  region : Option String
  explanation : String
  confidence : ℚ
  accepted : Bool
deriving DecidableEq

/-- Sanitizing portion of `_finalize_classification_result` (ai_utils2.py),
up to the classification dict literal: coerce relevant with bool(),
default the optional fields, clamp the coerced confidence into [0, 1]
(0.0 when float() raises), truncate the explanation to 70 characters, and
compute `accepted = relevant and confidence >= 0.79`. -/
def finalizeCore (r : RawResult) : Cla :=
  let relevant := pyTruthy r.relevant
  let explanation := r.explanation.getD ""
  let conf0 := (pyFloat (r.confidence.getD (.jnum 0))).getD 0
  let confidence := max 0 (min 1 conf0)
  { relevant, category := r.category, subcategory := r.subcategory,
    region := r.region, explanation := pyTake 70 explanation, confidence,
    accepted := relevant ∧ CONF_THRESHOLD ≤ confidence }

/-- Modelled from the spec: the lexicon constants imported from
constants.py (SELLER_TERMS, OFFER_TERMS, REALTY_HINT_TERMS,
BUYER_TRIGGERS, QUESTION_INDICATORS, SALESY_TERMS, PROMO_CTA_TERMS) are
not among the provided sources. Spec sections 4.3 and 4.4 describe them as
seller-term, offer, realty-hint, buyer-intent, question and
insurance-sales vocabularies; they are kept as parameters of the override
logic here. -/
structure Lexicons where
  sellerTerms : List String
  offerTerms : List String
  realtyHintTerms : List String
  buyerTriggers : List String
  questionIndicators : List String
  salesyTerms : List String
  promoCtaTerms : List String
deriving DecidableEq

/-- Results of the three regular-expression probes used by the realty
branch of apply_overrides on the lowercased text (the regex engine itself
is not embedded): the match count of _PRICE_REGEX, and whether the
floor-plan and area patterns match. -/
structure TextFeatures where
  priceMatchCount : ℕ
  hasLayout : Bool
  hasArea : Bool
deriving DecidableEq

/-- Inline rental_signals list of apply_overrides (ai_utils.py). -/
def rentalSignals : List String :=
  ["сниму", "снять", "ищу квартиру", "ищем квартиру", "ищет квартиру",
   "короткий срок", "на месяц", "на 1 месяц", "на один месяц"]

/-- Inline review_terms list of apply_overrides. -/
def reviewTerms : List String :=
  ["отлично", "хорошо", "плохо", "ужасно", "не рекомендую", "рекомендую",
   "советую", "не советую", "опыт", "работал", "работала", "пользовался",
   "пользовалась"]

/-- Inline recommendation_request_terms list of apply_overrides. -/
def recommendationRequestTerms : List String :=
  ["посоветуй", "посоветуйте", "кто знает", "кто может", "кто занимается"]

/-- The explicit rental-request condition guarding the first branch of
apply_overrides. -/
def rentalCond (lower : String) : Bool :=
  anyIn lower rentalSignals ∨
    (containsSub lower "квартир" ∧ anyIn lower ["ищу", "ищем", "ищет"])

/-- Heuristic-category truthiness (`if category_heuristic`). -/
def heuristicTruthy : Option String → Bool
  | some h => h ≠ ""
  | none => false

/-- Realty-listing cutoff and the remaining branches of apply_overrides,
entered when neither the rental nor the insurance branch returned. -/
def overridesTail (lex : Lexicons) (feat : TextFeatures) (cla : Cla)
    (lower : String) (categoryHeuristic : Option String) : Cla :=
  let hasBuyer := anyIn lower lex.buyerTriggers
  let inRealty :=
    cla.category = some "недвижимость" ∨ categoryHeuristic = some "недвижимость"
  let sellerish :=
    anyIn lower lex.sellerTerms ∨ 0 < feat.priceMatchCount ∨ feat.hasLayout ∨
      feat.hasArea ∨ anyIn lower lex.realtyHintTerms
  let emojiSections := countSub lower "🌟" + countSub lower "🌴" + countSub lower "✨"
  let promoCtaHits := (lex.promoCtaTerms.map (fun t => countSub lower t)).sum
  if inRealty ∧ sellerish ∧ ¬hasBuyer then
    { cla with relevant := false, explanation := "Риэлторский листинг/продажа" }
  else if inRealty ∧
      (2 ≤ feat.priceMatchCount ∨ 2 ≤ emojiSections ∨ 2 ≤ promoCtaHits) ∧
      ¬hasBuyer then
    { cla with relevant := false, explanation := "Риэлторский листинг/продажа" }
  else if anyIn lower lex.offerTerms ∧ ¬hasBuyer then
    { cla with relevant := false, explanation := "Предложение услуг, а не запрос" }
  else if anyIn lower reviewTerms ∧ ¬hasBuyer ∧
      ¬anyIn lower recommendationRequestTerms then
    { cla with relevant := false, explanation := "Отзыв или комментарий, а не запрос" }
  else
    let cla1 :=
      if heuristicTruthy categoryHeuristic ∧
          ((cla.category = none ∨ cla.category = some "") ∨ cla.confidence < 6/10)
      then { cla with category := categoryHeuristic }
      else cla
    if heuristicTruthy categoryHeuristic ∧ cla1.category = categoryHeuristic ∧
        cla1.confidence < 8/10 then
      { cla1 with confidence := min (85/100) (cla1.confidence + 1/10) }
    else cla1

/-- Model of `apply_overrides(cla, lower_text, category_heuristic)` from
ai_utils.py: rental requests force relevance; massage vocabulary forces
the beauty category; salesy insurance text without a question indicator is
rejected; then the realty-listing, offer and review cutoffs and the
heuristic-category adjustment run in order. -/
def applyOverrides (lex : Lexicons) (feat : TextFeatures) (cla : Cla)
    (lower : String) (categoryHeuristic : Option String) : Cla :=
  if rentalCond lower then
    { cla with relevant := true,
               category := some (pyOr cla.category "недвижимость"),
               explanation := "Запрос аренды недвижимости" }
  else
    let cla1 :=
      if anyIn lower ["массаж", "массажист", "массажистка"] then
        { cla with category := some "бьюти" }
      else cla
    if containsSub lower "страховка" ∧ anyIn lower lex.salesyTerms ∧
        ¬anyIn lower lex.questionIndicators then
      { cla1 with relevant := false, explanation := "Реклама страховки" }
    else overridesTail lex feat cla1 lower categoryHeuristic

/-- Model of `_finalize_classification_result(result, text, cache_key)`
from ai_utils2.py (the cache write aside): sanitize the raw result, then
apply the overrides with the raw category as heuristic. `lower` stands
for `text.lower()`. -/
def finalizeClassification (lex : Lexicons) (feat : TextFeatures)
    (r : RawResult) (lower : String) : Cla :=
  applyOverrides lex feat (finalizeCore r) lower r.category

/-- Environment of one `classify_text_with_ai` call (ai_utils2.py): the
outcome of each provider call and, per fallback, its enable flag and
whether the remaining deadline budget exceeded the 1-second floor. The
OpenAI fallback result is the classification it returns after its own
override pass. -/
structure ProviderEnv where
  primary : Except String RawResult
  deepseekEnabled : Bool
  deepseekBudget : Bool
  deepseekCall : Except String RawResult
  glmEnabled : Bool
  glmBudget : Bool
  glmCall : Except String RawResult
  ossEnabled : Bool
  ossBudget : Bool
  ossCall : Except String RawResult
  openaiBudget : Bool
  openaiCall : Except String Cla

/-- Model of `_run_deepseek_fallback`: skipped when disabled or out of
budget, none on a failed call, otherwise the finalized result. -/
def runDeepseekFallback (lex : Lexicons) (feat : TextFeatures)
    (env : ProviderEnv) (lower : String) : Option Cla :=
  if ¬env.deepseekEnabled then none
  else if ¬env.deepseekBudget then none
  else
    match env.deepseekCall with
    | .error _ => none
    | .ok r => some (finalizeClassification lex feat r lower)

/-- Model of `_run_glm_fallback`. -/
def runGlmFallback (lex : Lexicons) (feat : TextFeatures)
    (env : ProviderEnv) (lower : String) : Option Cla :=
  if ¬env.glmEnabled then none
  else if ¬env.glmBudget then none
  else
    match env.glmCall with
    | .error _ => none
    | .ok r => some (finalizeClassification lex feat r lower)

/-- Model of `_run_oss_fallback`. -/
def runOssFallback (lex : Lexicons) (feat : TextFeatures)
    (env : ProviderEnv) (lower : String) : Option Cla :=
  if ¬env.ossEnabled then none
  else if ¬env.ossBudget then none
  else
    match env.ossCall with
    | .error _ => none
    | .ok r => some (finalizeClassification lex feat r lower)

/-- Model of `_run_openai_fallback`: skipped when out of budget, none on a
failed or timed-out call, otherwise the classification it produced. -/
def runOpenaiFallback (env : ProviderEnv) : Option Cla :=
  if ¬env.openaiBudget then none
  else
    match env.openaiCall with
    | .error _ => none
    | .ok c => some c

/-- The default dict returned when the primary call and every fallback
failed: relevant false, confidence 0.0, accepted false. -/
def defaultClassification (errMsg : String) : Cla :=
  { relevant := false, category := none, subcategory := none, region := none,
    explanation := "Grok error: " ++ errMsg, confidence := 0, accepted := false }

/-- Model of `classify_text_with_ai(text, ...)` from ai_utils2.py: serve a
cache hit; otherwise call the primary provider, falling back through
DeepSeek, GLM, OSS and OpenAI in order when it raises, and yielding the
default result when the whole chain is exhausted. -/
def classifyTextWithAI2 (lex : Lexicons) (feat : TextFeatures)
    (env : ProviderEnv) (cached : Option Cla) (lower : String) : Cla :=
  match cached with
  | some c => c
  | none =>
    match env.primary with
    | .ok r => finalizeClassification lex feat r lower
    | .error e =>
      match runDeepseekFallback lex feat env lower with
      | some c => c
      | none =>
        match runGlmFallback lex feat env lower with
        | some c => c
        | none =>
          match runOssFallback lex feat env lower with
          | some c => c
          | none =>
            match runOpenaiFallback env with
            | some c => c
            | none => defaultClassification e

end AI

namespace Routing

/-- Outcome of the confidence routing at the tail of
`process_message` (Botparsing.py) for a relevant classification:
discarded below DISCARD_THRESHOLD; inside the review band either dropped
by the category or keyword gate or forwarded to admin review; at or above
CONF_THRESHOLD either dropped by the final category and keyword filters
or passed on toward subscriber delivery. -/
inductive RouteOutcome where
  | discard
  | reviewNoCategory
  | reviewNoKw
  | review
  | dropNoCategory
  | dropNoKw
  | proceed
deriving DecidableEq

/-- DISCARD_THRESHOLD = 0.70 (Botparsing.py). -/
def DISCARD_THRESHOLD : ℚ := 7 / 10

/-- CONF_THRESHOLD = 0.79 (Botparsing.py). -/
def CONF_THRESHOLD : ℚ := 79 / 100

/-- Lookup of a category entry; the second component holds the stems of
its top-level keywords. -/
def lookupCat (cats : List (String × List String)) (c : String) :
    Option (List String) :=
  (cats.find? (fun p => p.1 == c)).map (·.2)

/-- The gate shared by the review branch and the final category filter:
none when the assigned category is falsy or not configured, otherwise the
top-level keyword stems of the category. -/
def catStems (cats : List (String × List String)) (assignedCat : Option String) :
    Option (List String) :=
  match assignedCat with
  | none => none
  | some c => if c = "" then none else lookupCat cats c

/-- Model of the confidence routing of `process_message` (lines following
the relevance check): `conf` is the classification confidence,
`assignedCat` the AI category, `cats` the configured categories with their
top-level keyword stems, and `stemsInText` the stems of the message
tokens. -/
def routeClassified (conf : ℚ) (assignedCat : Option String)
    (cats : List (String × List String)) (stemsInText : List String) :
    RouteOutcome :=
  if conf < DISCARD_THRESHOLD then .discard
  else if conf < CONF_THRESHOLD then
    match catStems cats assignedCat with
    | none => .reviewNoCategory
    | some stems =>
      if stems ≠ [] ∧ ¬stems.any (fun s => stemsInText.contains s) then .reviewNoKw
      else .review
  else
    match catStems cats assignedCat with
    | none => .dropNoCategory
    | some stems =>
      if stems ≠ [] ∧ ¬stems.any (fun s => stemsInText.contains s) then
        if 92/100 ≤ conf then .proceed else .dropNoKw
      else .proceed

end Routing

namespace Delivery

/-- One subscriber as seen by the loop of `send_lead_to_users`
(delivery.py). `active` is the outcome of the subscription/trial window
check (a wall-clock comparison); `keywordStems` are the stems derived
from the subscribed categories and subcategories. -/
structure SubPrefs where
  uid : ℕ
  active : Bool
  locations : List String
  categories : List String
  subcats : List (String × List String)
  keywordStems : List String
deriving DecidableEq

/-- Subcategory preference lookup `prefs.get("subcats", {}).get(cat, [])`. -/
def subcatsFor (p : SubPrefs) (cat : String) : List String :=
  ((p.subcats.find? (fun q => q.1 == cat)).map (·.2)).getD []

/-- Region gate of the loop: skip unless some detected delivery region is
among the subscriber locations. -/
def regionSkip (p : SubPrefs) (targetRegions : List String) : Bool :=
  targetRegions.isEmpty || !targetRegions.any (fun r => p.locations.contains r)

/-- Strict AI-category gate: skip when a detected category is not among
the subscribed categories. -/
def catSkip (p : SubPrefs) (detectedCategory : Option String) : Bool :=
  match detectedCategory with
  | some c => !p.categories.contains c
  | none => false

/-- Subcategory gate: skip when the lead carries a subcategory, the
subscriber has subcategory preferences for the detected category, and the
subcategory is not among them. -/
def subcatSkip (p : SubPrefs) (subcategory detectedCategory : Option String) :
    Bool :=
  match subcategory, detectedCategory with
  | some sc, some c =>
    !(subcatsFor p c).isEmpty && !(subcatsFor p c).contains sc
  | _, _ => false

/-- Model of the per-subscriber loop of `send_lead_to_users`: the gates run
in source order (active window, region intersection, AI category
membership, subcategory membership, keyword-stem intersection, the
confidence >= 0.79 gate), each `continue` dropping the subscriber, and a
surviving subscriber lands in the sent or failed list according to the
send outcome `sendOk`. -/
def sendLeadToUsers (subs : List SubPrefs) (targetRegions : List String)
    (detectedCategory : Option String) (subcategory : Option String)
    (textStems : List String) (confidence : ℚ) (sendOk : ℕ → Bool) :
    List ℕ × List ℕ :=
  match subs with
  | [] => ([], [])
  | p :: rest =>
    let tail := sendLeadToUsers rest targetRegions detectedCategory subcategory
      textStems confidence sendOk
    if ¬p.active then tail
    else if regionSkip p targetRegions then tail
    else if catSkip p detectedCategory then tail
    else if subcatSkip p subcategory detectedCategory then tail
    else if ¬p.keywordStems.any (fun s => textStems.contains s) then tail
    else if confidence < 79/100 then tail
    else if sendOk p.uid then (p.uid :: tail.1, tail.2)
    else (tail.1, p.uid :: tail.2)

end Delivery

namespace Dedup

/-- Run a sequence of duplicate checks for one normalized text at the given
times, returning the verdicts in order. -/
def runChecks (window : ℤ) (maxCache : ℕ) (key : String) :
    List ℤ → DState → List Bool
  | [], _ => []
  | t :: ts, st =>
    let r := shouldDropDuplicate window maxCache t key st
    r.1 :: runChecks window maxCache key ts r.2

end Dedup

namespace AI

/-- Concrete lexicons for evaluation, chosen consistently with the spec
vocabulary descriptions (a seller term, an offer term, a realty hint, a
buyer-intent trigger, the question mark, an insurance-sales term, a
promotional call-to-action term). -/
def lexCE : Lexicons :=
  ⟨["продаю"], ["предлагаю"], ["жк"], ["ищу"], ["?"], ["выгодно"], ["скидка"]⟩

/-- Neutral regex features: a text with no price, floor-plan or area hits. -/
def featCE : TextFeatures := ⟨0, false, false⟩

/-- Length of a Python slice. -/
theorem pyTake_length (n : ℕ) (s : String) :
    (pyTake n s).length = min n s.length := by
  show (s.data.take n).length = min n s.data.length
  exact List.length_take n s.data

end AI

/-- Claim C3 counterexample: with a 600-second window and an empty cache,
the verdicts for identical text at t = 0, 300, 700 are
[pass, duplicate, duplicate] — the claim asserts the third submission at
t = 700 passes again, but the duplicate check at t = 300 refreshed the
last-seen timestamp to 300, which is still inside the window at t = 700. -/
theorem C3_counterexample :
    Dedup.runChecks 600 20000 "hello" [0, 300, 700] ⟨[], []⟩ =
      [false, true, true] := by decide

/-- Claim C3 (amended): with the dedup window at 600 seconds and an empty
cache, the first submission at t = 0 passes, the submissions at t = 300
and t = 700 are dropped as duplicates (every check, duplicate or not,
refreshes the last-seen timestamp, so the window slides), and a
submission more than 600 seconds after the previous one — at t = 1301 —
passes again. -/
theorem C3_dedup_sliding_window :
    Dedup.runChecks 600 20000 "hello" [0, 300, 700, 1301] ⟨[], []⟩ =
      [false, true, true, false] := by decide

/-- Script that rate-limits the first ten attempts and would succeed on the
eleventh. -/
def Conn.floodScript : ℕ → Conn.Outcome :=
  fun n => if n < 10 then .floodWait 5 else .success

/-- Claim C8 counterexample: under the default configuration
(max_retries = 10), a connection whose first ten attempts are flood-waits
and whose eleventh would succeed ends with `connect_with_retry` returning
False — every flood-wait consumed one of the bounded retry attempts, so
the would-be successful attempt is never made, contradicting the claim
that a flood-wait does not consume a standard retry attempt. -/
theorem C8_counterexample :
    (Conn.connectWithRetry Conn.defaultConfig Conn.floodScript
        (fun _ => 1/2)).connected = false ∧
      Conn.floodScript 10 = .success := by
  exact ⟨rfl, rfl⟩

/-- Claim C8 (amended): transient errors use exponential backoff with ±25
percent jitter whose pre-jitter delay is capped at max_delay — under the
hard-coded configuration (base 1s, cap 300s) the delay never exceeds
300s for any jitter draw in [0, 1] — while a flood-wait sleeps for the
provider-specified duration and then additionally counts as a standard
retry attempt: it increments the bounded retry counter and incurs the
normal backoff delay as well. -/
theorem C8_backoff_capped_floodwait_counts (rc : ℕ) (r : ℚ) (s : ℚ)
    (rand : ℕ → ℚ) (h0 : 0 ≤ r) (h1 : r ≤ 1) :
    Conn.calculateDelay Conn.defaultConfig rc r ≤ 300 ∧
      Conn.connectWithRetry Conn.defaultConfig
          (fun n => if n = 0 then .floodWait s else .success) rand =
        ⟨true, 1, [s, Conn.calculateDelay Conn.defaultConfig 1 (rand 1)]⟩ := by
  constructor
  · unfold Conn.calculateDelay
    split
    · norm_num
    · have hd1le : min (Conn.defaultConfig.baseDelay * 2 ^ min (rc - 1) 8)
          Conn.defaultConfig.maxDelay ≤ 256 := by
        refine le_trans (min_le_left _ _) ?_
        show (1:ℚ) * 2 ^ min (rc - 1) 8 ≤ 256
        rw [one_mul]
        calc (2:ℚ) ^ min (rc - 1) 8 ≤ 2 ^ 8 :=
              pow_le_pow_right₀ (by norm_num) (min_le_right _ _)
          _ ≤ 256 := by norm_num
      have hd1nn : 0 ≤ min (Conn.defaultConfig.baseDelay * 2 ^ min (rc - 1) 8)
          Conn.defaultConfig.maxDelay := by
        refine le_min ?_ ?_
        · show (0:ℚ) ≤ 1 * 2 ^ min (rc - 1) 8
          positivity
        · show (0:ℚ) ≤ 300
          norm_num
      set d1 := min (Conn.defaultConfig.baseDelay * 2 ^ min (rc - 1) 8)
          Conn.defaultConfig.maxDelay with hd1
      refine max_le (by norm_num) ?_
      have hj : d1 * (1/4) * (r - 1/2) ≤ d1 * (1/4) * (1/2) := by
        refine mul_le_mul_of_nonneg_left (by linarith) ?_
        positivity
      nlinarith
  · rfl

/-- Claim C8 witness: the amended statement instantiated at retry count 3,
jitter draw 1/2, flood duration 5 and a constant random stream. -/
theorem C8_witness :
    Conn.calculateDelay Conn.defaultConfig 3 (1/2) ≤ 300 ∧
      Conn.connectWithRetry Conn.defaultConfig
          (fun n => if n = 0 then .floodWait 5 else .success) (fun _ => 1/2) =
        ⟨true, 1, [5, Conn.calculateDelay Conn.defaultConfig 1 (1/2)]⟩ :=
  C8_backoff_capped_floodwait_counts 3 (1/2) 5 (fun _ => 1/2)
    (by norm_num) (by norm_num)

/-- Claim C6: in both classifier implementations the sanitization step
clamps the coerced confidence into [0, 1] — the non-numeric string
"not-a-number" yields 0.0 and the value 1.5 yields 1.0 — truncates the
explanation to at most 70 characters, and defaults the missing relevant,
category, subcategory and region fields to false/none. -/
theorem C6_sanitize_clamp_truncate_default :
    (∀ r : AI.RawResult,
      0 ≤ (AI.sanitizeResult r).confidence ∧ (AI.sanitizeResult r).confidence ≤ 1 ∧
        (AI.sanitizeResult r).explanation.length ≤ 70 ∧
        0 ≤ (AI.finalizeCore r).confidence ∧ (AI.finalizeCore r).confidence ≤ 1 ∧
        (AI.finalizeCore r).explanation.length ≤ 70) ∧
    (AI.sanitizeResult { confidence := some (.jstr "not-a-number") }).confidence = 0 ∧
    (AI.sanitizeResult { confidence := some (.jnum (3/2)) }).confidence = 1 ∧
    (AI.finalizeCore { confidence := some (.jstr "not-a-number") }).confidence = 0 ∧
    (AI.finalizeCore { confidence := some (.jnum (3/2)) }).confidence = 1 ∧
    (AI.sanitizeResult {}).relevant = .jbool false ∧
    (AI.sanitizeResult {}).category = none ∧
    (AI.sanitizeResult {}).subcategory = none ∧
    (AI.sanitizeResult {}).region = none ∧
    (AI.finalizeCore {}).relevant = false ∧
    (AI.finalizeCore {}).category = none ∧
    (AI.finalizeCore {}).subcategory = none ∧
    (AI.finalizeCore {}).region = none := by
  have hnan : AI.pyFloat (AI.JVal.jstr "not-a-number") = none := by rfl
  have hd : "...".length = 3 := rfl
  refine ⟨fun r => ⟨le_max_left _ _, max_le (by norm_num) (min_le_left _ _),
      ?_, le_max_left _ _, max_le (by norm_num) (min_le_left _ _), ?_⟩,
    ?_, ?_, ?_, ?_, rfl, rfl, rfl, rfl, rfl, rfl, rfl, rfl⟩
  · simp only [AI.sanitizeResult]
    split
    · next h =>
        rw [String.length_append, AI.pyTake_length, hd]
        omega
    · next h => omega
  · simp only [AI.finalizeCore]
    rw [AI.pyTake_length]
    omega
  · simp [AI.sanitizeResult, hnan]
  · simp [AI.sanitizeResult, AI.pyFloat]
    norm_num
  · simp [AI.finalizeCore, hnan]
  · simp [AI.finalizeCore, AI.pyFloat]
    norm_num

/-- Claim C7 counterexample: for a classification whose provider category
is "бьюти" and a lowercased text containing the rental signal "сниму",
the override keeps the provider category — `cla.get("category") or
"недвижимость"` only fills in a missing category — so the result is not
forced to "недвижимость" as the claim states (relevance is forced). -/
theorem C7_counterexample :
    (AI.applyOverrides AI.lexCE AI.featCE
        { relevant := false, category := some "бьюти", subcategory := none,
          region := none, explanation := "", confidence := 0, accepted := false }
        "сниму квартиру на месяц" none).category = some "бьюти" := by
  rfl

/-- Claim C7 (amended): when the lowercased text contains explicit
rental-request phrasing, the override forces relevant to true and sets the
explanation, but the category is set to "недвижимость" only when the
provider returned no category (absent or empty); a non-empty provider
category is kept. -/
theorem C7_rental_override (lex : AI.Lexicons) (feat : AI.TextFeatures)
    (cla : AI.Cla) (lower : String) (heuristic : Option String)
    (h : AI.rentalCond lower = true) :
    (AI.applyOverrides lex feat cla lower heuristic).relevant = true ∧
      (AI.applyOverrides lex feat cla lower heuristic).category =
        some (AI.pyOr cla.category "недвижимость") ∧
      (AI.applyOverrides lex feat cla lower heuristic).explanation =
        "Запрос аренды недвижимости" ∧
      (cla.category = none →
        (AI.applyOverrides lex feat cla lower heuristic).category =
          some "недвижимость") := by
  refine ⟨?_, ?_, ?_, ?_⟩ <;> simp [AI.applyOverrides, h, AI.pyOr]
  intro hc
  simp [hc, AI.pyOr]

/-- Claim C7 witness: the amended rental override applied to a concrete
classification with no provider category and the text "сниму квартиру". -/
theorem C7_witness :
    (AI.applyOverrides AI.lexCE AI.featCE
        { relevant := false, category := none, subcategory := none,
          region := none, explanation := "", confidence := 0, accepted := false }
        "сниму квартиру" none).relevant = true ∧
      (AI.applyOverrides AI.lexCE AI.featCE
          { relevant := false, category := none, subcategory := none,
            region := none, explanation := "", confidence := 0, accepted := false }
          "сниму квартиру" none).category = some "недвижимость" := by
  have h := C7_rental_override AI.lexCE AI.featCE
    { relevant := false, category := none, subcategory := none,
      region := none, explanation := "", confidence := 0, accepted := false }
    "сниму квартиру" none (by rfl)
  exact ⟨h.1, h.2.2.2 rfl⟩

/-- Classification produced by finalization in ai_utils2 for a relevant,
confidence-0.9 raw result over the salesy insurance text
"страховка выгодно" (no question indicator present). -/
def AI.c10out : AI.Cla :=
  AI.finalizeClassification AI.lexCE AI.featCE
    { relevant := some (.jbool true), confidence := some (.jnum (9/10)) }
    "страховка выгодно"

/-- Claim C10 counterexample: the finalized classification of a relevant
raw result with confidence 0.9 over salesy insurance text has
accepted = true while relevant = false — the insurance override flips
relevant after accepted was computed, violating the claimed invariant
accepted = (relevant and confidence >= 0.79). -/
theorem C10_counterexample :
    AI.c10out.accepted = true ∧ AI.c10out.relevant = false := by
  constructor
  · show (AI.finalizeCore
      { relevant := some (.jbool true), confidence := some (.jnum (9/10)) }).accepted = true
    simp [AI.finalizeCore, AI.pyTruthy, AI.pyFloat, AI.CONF_THRESHOLD]
    norm_num
  · rfl

/-- Claim C10 (amended): at the sanitization stage the invariant holds in
both implementations — `_sanitize_result` sets accepted exactly when the
raw relevant value is True and the clamped confidence reaches 0.79, and
the sanitizing core of `_finalize_classification_result` sets accepted
exactly when the coerced relevant is true and the clamped confidence
reaches 0.79 — but the override step run afterwards inside finalization
may set relevant to false without recomputing accepted. -/
theorem C10_accepted_invariant_at_sanitization (r : AI.RawResult) :
    ((AI.sanitizeResult r).accepted = true ↔
      ((AI.sanitizeResult r).relevant = .jbool true ∧
        AI.CONF_THRESHOLD ≤ (AI.sanitizeResult r).confidence)) ∧
    ((AI.finalizeCore r).accepted = true ↔
      ((AI.finalizeCore r).relevant = true ∧
        AI.CONF_THRESHOLD ≤ (AI.finalizeCore r).confidence)) := by
  constructor
  · simp [AI.sanitizeResult]
  · simp [AI.finalizeCore]

/-- Claim C5: when the primary provider call raises and every fallback in
the chain fails or is skipped, classify returns the default result with
relevant = false and confidence = 0.0 (total function, so no exception);
and a single failed or skipped fallback advances to the next provider —
shown for each link of the DeepSeek → GLM → OSS → OpenAI chain. -/
theorem C5_fallback_chain (lex : AI.Lexicons) (feat : AI.TextFeatures)
    (env : AI.ProviderEnv) (lower : String) (e : String)
    (hp : env.primary = .error e) :
    ((AI.runDeepseekFallback lex feat env lower = none ∧
      AI.runGlmFallback lex feat env lower = none ∧
      AI.runOssFallback lex feat env lower = none ∧
      AI.runOpenaiFallback env = none) →
        AI.classifyTextWithAI2 lex feat env none lower =
          AI.defaultClassification e ∧
        (AI.classifyTextWithAI2 lex feat env none lower).relevant = false ∧
        (AI.classifyTextWithAI2 lex feat env none lower).confidence = 0) ∧
    (∀ c, AI.runDeepseekFallback lex feat env lower = some c →
      AI.classifyTextWithAI2 lex feat env none lower = c) ∧
    (∀ c, AI.runDeepseekFallback lex feat env lower = none →
      AI.runGlmFallback lex feat env lower = some c →
      AI.classifyTextWithAI2 lex feat env none lower = c) ∧
    (∀ c, AI.runDeepseekFallback lex feat env lower = none →
      AI.runGlmFallback lex feat env lower = none →
      AI.runOssFallback lex feat env lower = some c →
      AI.classifyTextWithAI2 lex feat env none lower = c) ∧
    (∀ c, AI.runDeepseekFallback lex feat env lower = none →
      AI.runGlmFallback lex feat env lower = none →
      AI.runOssFallback lex feat env lower = none →
      AI.runOpenaiFallback env = some c →
      AI.classifyTextWithAI2 lex feat env none lower = c) := by
  refine ⟨?_, ?_, ?_, ?_, ?_⟩
  · rintro ⟨h1, h2, h3, h4⟩
    simp [AI.classifyTextWithAI2, hp, h1, h2, h3, h4, AI.defaultClassification]
  · intro c h1
    simp [AI.classifyTextWithAI2, hp, h1]
  · intro c h1 h2
    simp [AI.classifyTextWithAI2, hp, h1, h2]
  · intro c h1 h2 h3
    simp [AI.classifyTextWithAI2, hp, h1, h2, h3]
  · intro c h1 h2 h3 h4
    simp [AI.classifyTextWithAI2, hp, h1, h2, h3, h4]

/-- Environment in which the primary call and every fallback fail. -/
def AI.envAllFail : AI.ProviderEnv :=
  { primary := .error "boom",
    deepseekEnabled := true, deepseekBudget := true, deepseekCall := .error "down",
    glmEnabled := true, glmBudget := true, glmCall := .error "down",
    ossEnabled := false, ossBudget := true, ossCall := .error "down",
    openaiBudget := false, openaiCall := .error "down" }

/-- Claim C5 witness: in the all-fail environment the classify call yields
the default result with relevant = false and confidence = 0. -/
theorem C5_witness :
    AI.classifyTextWithAI2 AI.lexCE AI.featCE AI.envAllFail none "" =
      AI.defaultClassification "boom" ∧
    (AI.classifyTextWithAI2 AI.lexCE AI.featCE AI.envAllFail none "").relevant = false := by
  have h := C5_fallback_chain AI.lexCE AI.featCE AI.envAllFail "" "boom" rfl
  have hall := h.1 ⟨rfl, rfl, rfl, rfl⟩
  exact ⟨hall.1, hall.2.1⟩

/-- Below the deliver threshold every subscriber is skipped by the
confidence gate, so the sent list of the delivery loop is empty. -/
theorem Delivery.sent_empty_of_low_confidence (subs : List Delivery.SubPrefs)
    (regions : List String) (dc sc : Option String) (ts : List String)
    (conf : ℚ) (sendOk : ℕ → Bool) (h : conf < 79/100) :
    (Delivery.sendLeadToUsers subs regions dc sc ts conf sendOk).1 = [] := by
  induction subs with
  | nil => rfl
  | cons p rest ih =>
    simp only [Delivery.sendLeadToUsers]
    split_ifs <;> exact ih

/-- The review-band characterization of the routing outcome. -/
theorem Routing.route_review_band (conf : ℚ) (cat : Option String)
    (cats : List (String × List String)) (stems : List String)
    (hge : 7/10 ≤ conf) (hlt : conf < 79/100) :
    Routing.routeClassified conf cat cats stems =
      (match Routing.catStems cats cat with
       | none => .reviewNoCategory
       | some ks =>
         if ks ≠ [] ∧ ¬ks.any (fun s => stems.contains s) then .reviewNoKw
         else .review) := by
  simp only [Routing.routeClassified, Routing.DISCARD_THRESHOLD,
    Routing.CONF_THRESHOLD, if_neg (not_lt.mpr hge), if_pos hlt]

/-- The routing outcome reaches the delivery path only at or above the
deliver threshold. -/
theorem Routing.route_proceed_needs_threshold (conf : ℚ) (cat : Option String)
    (cats : List (String × List String)) (stems : List String)
    (hp : Routing.routeClassified conf cat cats stems = .proceed) :
    79/100 ≤ conf := by
  by_contra hlt
  push_neg at hlt
  rcases lt_or_le conf (7/10 : ℚ) with hl | hg
  · simp only [Routing.routeClassified, Routing.DISCARD_THRESHOLD,
      if_pos hl] at hp
    cases hp
  · rw [Routing.route_review_band conf cat cats stems hg hlt] at hp
    cases hcs : Routing.catStems cats cat with
    | none =>
      simp only [hcs] at hp
      cases hp
    | some ks =>
      simp only [hcs] at hp
      split_ifs at hp

/-- Claim C4 counterexample: a lead with confidence 0.75 — inside the
review band — whose AI category is absent is dropped by the review
branch category gate rather than being routed to manual review (it is
still never delivered), so the claim that every lead in the band reaches
the manual-review path fails. -/
theorem C4_counterexample :
    Routing.routeClassified (3/4) none [] [] = .reviewNoCategory ∧
      Routing.RouteOutcome.reviewNoCategory ≠ .review := by
  constructor
  · rw [Routing.route_review_band (3/4) none [] [] (by norm_num) (by norm_num)]
    rfl
  · simp

/-- Claim C4 (amended): a lead with confidence below the deliver threshold
0.79 is never directly delivered (the sent list of the delivery loop is
empty, and the routing reaches the delivery path only at or above 0.79);
confidence below the discard threshold 0.70 is discarded; confidence in
[0.70, 0.79) lands in the review branch, reaching admin review exactly
when the AI category is configured and its top-level keyword gate passes,
and being dropped by that branch otherwise. -/
theorem C4_confidence_gating (conf : ℚ) (cat : Option String)
    (cats : List (String × List String)) (stems : List String)
    (subs : List Delivery.SubPrefs) (regions : List String)
    (dc sc : Option String) (ts : List String) (sendOk : ℕ → Bool)
    (hconf : conf < 79/100) :
    (Delivery.sendLeadToUsers subs regions dc sc ts conf sendOk).1 = [] ∧
    (conf < 7/10 → Routing.routeClassified conf cat cats stems = .discard) ∧
    (7/10 ≤ conf →
      Routing.routeClassified conf cat cats stems =
        (match Routing.catStems cats cat with
         | none => .reviewNoCategory
         | some ks =>
           if ks ≠ [] ∧ ¬ks.any (fun s => stems.contains s) then .reviewNoKw
           else .review) ∧
      Routing.routeClassified conf cat cats stems ≠ .proceed) ∧
    (∀ c2 : ℚ, Routing.routeClassified c2 cat cats stems = .proceed →
      79/100 ≤ c2) := by
  refine ⟨Delivery.sent_empty_of_low_confidence subs regions dc sc ts conf
      sendOk hconf, ?_, ?_, fun c2 hp =>
      Routing.route_proceed_needs_threshold c2 cat cats stems hp⟩
  · intro hlow
    simp [Routing.routeClassified, Routing.DISCARD_THRESHOLD, hlow]
  · intro hge
    refine ⟨Routing.route_review_band conf cat cats stems hge hconf, fun hp =>
      absurd (Routing.route_proceed_needs_threshold conf cat cats stems hp)
        (not_le.mpr hconf)⟩

/-- Claim C4 witness: the amended gating instantiated for a lead of
confidence 0.75, one active matching subscriber and an unconfigured
category. -/
theorem C4_witness :
    (Delivery.sendLeadToUsers [⟨42, true, ["x"], ["services"], [], ["plumb"]⟩]
        ["x"] (some "services") none ["plumb"] (3/4) (fun _ => true)).1 = [] ∧
    Routing.routeClassified (3/4) (some "services") [] [] ≠ .proceed := by
  have h := C4_confidence_gating (3/4) (some "services") [] []
    [⟨42, true, ["x"], ["services"], [], ["plumb"]⟩] ["x"] (some "services")
    none ["plumb"] (fun _ => true) (by norm_num)
  exact ⟨h.1, (h.2.2.1 (by norm_num)).2⟩

/-- Claim C2: with both payload keys present, enqueue returns false exactly
when the pending count has reached capacity or an identical (chat id,
message id) pair is already pending, in which case the queue state is
unchanged; otherwise it returns true and appends exactly one new pending
row. -/
theorem C2_enqueue_backpressure_and_dedup (maxSize now : ℕ) (ev : MQ.Event)
    (prio : ℤ) (s : MQ.QState) (c m : ℤ)
    (hc : ev.chat_id = some c) (hm : ev.msg_id = some m) :
    ((MQ.enqueueQ maxSize now ev prio s).1 = false ↔
      (maxSize ≤ MQ.pendingCount s ∨ MQ.dupPending s c m = true)) ∧
    ((MQ.enqueueQ maxSize now ev prio s).1 = false →
      (MQ.enqueueQ maxSize now ev prio s).2 = s) ∧
    ((MQ.enqueueQ maxSize now ev prio s).1 = true →
      (MQ.enqueueQ maxSize now ev prio s).2.items =
        s.items ++ [⟨s.nextId, .payload ev, .pending, prio, now, none⟩] ∧
      (MQ.enqueueQ maxSize now ev prio s).2.nextId = s.nextId + 1) := by
  simp only [MQ.enqueueQ, hc, hm]
  split_ifs with h1 h2
  · exact ⟨by simp [h1], fun _ => rfl, by simp⟩
  · exact ⟨by simp [h2], fun _ => rfl, by simp⟩
  · exact ⟨by simp [h1, h2], by simp, fun _ => ⟨rfl, rfl⟩⟩

/-- Claim C2 witness: scenario A — enqueueing (chat 100, message 5) while
an identical pending row exists returns false and leaves the row count
at one; enqueueing into the empty queue returns true. -/
theorem C2_witness :
    (MQ.enqueueQ 10000 1 ⟨some 100, some 5, "x"⟩ 0
        { items := [⟨1, .payload ⟨some 100, some 5, "x"⟩, .pending, 0, 0, none⟩],
          nextId := 2 }).1 = false ∧
    (MQ.enqueueQ 10000 0 ⟨some 100, some 5, "x"⟩ 0
        { items := [], nextId := 1 }).1 = true := by
  constructor
  · exact (C2_enqueue_backpressure_and_dedup 10000 1 ⟨some 100, some 5, "x"⟩ 0
      { items := [⟨1, .payload ⟨some 100, some 5, "x"⟩, .pending, 0, 0, none⟩],
        nextId := 2 } 100 5 rfl rfl).1.mpr (Or.inr (by decide))
  · have h := C2_enqueue_backpressure_and_dedup 10000 0 ⟨some 100, some 5, "x"⟩ 0
      { items := [], nextId := 1 } 100 5 rfl rfl
    by_contra hb
    have hfalse : (MQ.enqueueQ 10000 0 ⟨some 100, some 5, "x"⟩ 0
        { items := [], nextId := 1 }).1 = false := by
      cases hv : (MQ.enqueueQ 10000 0 ⟨some 100, some 5, "x"⟩ 0
          { items := [], nextId := 1 }).1
      · rfl
      · exact absurd hv hb
    rcases h.1.mp hfalse with hcap | hdup
    · simp [MQ.pendingCount] at hcap
    · simp [MQ.dupPending] at hdup

/-- Queue with one processing row id 7 holding an ordinary payload. -/
def MQ.s9 : MQ.QState :=
  { items := [⟨7, .payload ⟨some 100, some 5, "x"⟩, .processing, 0, 0, some 1⟩],
    nextId := 8 }

/-- Claim C9: mark_failed with a non-empty error replaces the stored event
with the error note, sets status failed and the processing timestamp, and
touches nothing else; but with error None (or the empty string) the code
binds SQL NULL for the event column, which violates the NOT NULL
constraint of the schema, so the UPDATE raises and the row keeps its
previous state instead of becoming NULL as the claim describes. -/
theorem C9_mark_failed_null_rejected :
    MQ.markFailed 5 7 none MQ.s9 =
      .error "NOT NULL constraint failed: queue.event" ∧
    MQ.markFailed 5 7 (some "") MQ.s9 =
      .error "NOT NULL constraint failed: queue.event" ∧
    MQ.markFailed 5 7 (some "boom") MQ.s9 =
      .ok { items := [⟨7, .errorNote "boom", .failed, 0, 0, some 5⟩],
            nextId := 8 } := by
  exact ⟨rfl, rfl, rfl⟩

/-- The row selected by the dequeue query is a pending member of the
table. -/
theorem MQ.selectPending_mem (l : List MQ.QueueItem) (it : MQ.QueueItem)
    (h : MQ.selectPending l = some it) : it ∈ l ∧ it.status = .pending := by
  induction l generalizing it with
  | nil => cases h
  | cons x xs ih =>
    simp only [MQ.selectPending] at h
    cases hs : MQ.selectPending xs with
    | none =>
      rw [hs] at h
      split_ifs at h with hx
      · injection h with h'
        subst h'
        exact ⟨List.mem_cons_self x xs, hx⟩
    | some y =>
      rw [hs] at h
      split_ifs at h with hx
      · injection h with h'
        subst h'
        obtain ⟨hmem, hpend⟩ := ih y hs
        by_cases hb : x.priority < y.priority ∨
            (y.priority = x.priority ∧ y.created_at < x.created_at)
        · simp only [MQ.selBetter, if_pos hb]
          exact ⟨List.mem_cons_of_mem x hmem, hpend⟩
        · simp only [MQ.selBetter, if_neg hb]
          exact ⟨List.mem_cons_self x xs, hx⟩
      · injection h with h'
        subst h'
        obtain ⟨hmem, hpend⟩ := ih y hs
        exact ⟨List.mem_cons_of_mem x hmem, hpend⟩

/-- The dequeue query returns none exactly when no row is pending. -/
theorem MQ.selectPending_eq_none_iff (l : List MQ.QueueItem) :
    MQ.selectPending l = none ↔ ∀ it ∈ l, it.status ≠ .pending := by
  induction l with
  | nil => simp [MQ.selectPending]
  | cons x xs ih =>
    simp only [MQ.selectPending]
    cases hs : MQ.selectPending xs with
    | none =>
      split_ifs with hx
      · refine iff_of_false (by simp) ?_
        intro h
        exact absurd hx (h x (List.mem_cons_self x xs))
      · refine iff_of_true rfl ?_
        intro it hit
        rcases List.mem_cons.mp hit with rfl | hmem
        · exact hx
        · exact ih.mp hs it hmem
    | some y =>
      have hy := MQ.selectPending_mem xs y hs
      have hr : ¬∀ it ∈ x :: xs, it.status ≠ .pending := by
        intro h
        exact absurd hy.2 (h y (List.mem_cons_of_mem x hy.1))
      split_ifs with hx
      · exact iff_of_false (by simp) hr
      · exact iff_of_false (by simp) hr

/-- The selected row has the highest priority among pending rows and,
within that priority, the earliest creation time. -/
theorem MQ.selectPending_best (l : List MQ.QueueItem) (it : MQ.QueueItem)
    (h : MQ.selectPending l = some it) :
    ∀ j ∈ l, j.status = .pending →
      j.priority ≤ it.priority ∧
        (j.priority = it.priority → it.created_at ≤ j.created_at) := by
  induction l generalizing it with
  | nil => cases h
  | cons x xs ih =>
    intro j hj hjp
    simp only [MQ.selectPending] at h
    cases hs : MQ.selectPending xs with
    | none =>
      rw [hs] at h
      split_ifs at h with hx
      · injection h with h'
        subst h'
        rcases List.mem_cons.mp hj with rfl | hjx
        · exact ⟨le_refl _, fun _ => le_refl _⟩
        · exact absurd hjp ((MQ.selectPending_eq_none_iff xs).mp hs j hjx)
    | some y =>
      rw [hs] at h
      split_ifs at h with hx
      · injection h with h'
        subst h'
        by_cases hb : x.priority < y.priority ∨
            (y.priority = x.priority ∧ y.created_at < x.created_at)
        · simp only [MQ.selBetter, if_pos hb]
          rcases List.mem_cons.mp hj with rfl | hjx
          · rcases hb with hlt | ⟨heq, hct⟩
            · exact ⟨le_of_lt hlt, fun he => absurd (he ▸ hlt) (lt_irrefl _)⟩
            · exact ⟨le_of_eq heq.symm, fun _ => le_of_lt hct⟩
          · exact ih y hs j hjx hjp
        · simp only [MQ.selBetter, if_neg hb]
          push_neg at hb
          obtain ⟨hb1, hb2⟩ := hb
          rcases List.mem_cons.mp hj with rfl | hjx
          · exact ⟨le_refl _, fun _ => le_refl _⟩
          · have hy := ih y hs j hjx hjp
            refine ⟨le_trans hy.1 hb1, ?_⟩
            intro hje
            have hyeq : y.priority = x.priority :=
              le_antisymm hb1 (hje ▸ hy.1)
            have hxy : x.created_at ≤ y.created_at := hb2 hyeq
            have h1 : y.created_at ≤ j.created_at := hy.2 (by rw [hje, ← hyeq])
            exact le_trans hxy h1
      · injection h with h'
        subst h'
        rcases List.mem_cons.mp hj with rfl | hjx
        · exact absurd hjp hx
        · exact ih y hs j hjx hjp

/-- A dequeue call returning a row yields its id, event, pending status,
optimality under (priority DESC, created_at ASC), and the exact UPDATE of
the table. -/
theorem MQ.dequeueQ_some_spec (now : ℕ) (s : MQ.QState) (i : ℕ)
    (col : MQ.EventCol) (s' : MQ.QState)
    (h : MQ.dequeueQ now s = (some (i, col), s')) :
    ∃ it, it ∈ s.items ∧ it.id = i ∧ it.event = col ∧ it.status = .pending ∧
      (∀ j ∈ s.items, j.status = .pending →
        j.priority ≤ it.priority ∧
          (j.priority = it.priority → it.created_at ≤ j.created_at)) ∧
      s'.items = s.items.map (fun j =>
        if j.id = i then { j with status := .processing, processed_at := some now }
        else j) := by
  simp only [MQ.dequeueQ] at h
  cases hs : MQ.selectPending s.items with
  | none =>
    rw [hs] at h
    injection h with h1 h2
    exact Option.noConfusion h1
  | some it =>
    rw [hs] at h
    injection h with h1 h2
    injection h1 with h3
    injection h3 with h4 h5
    refine ⟨it, (MQ.selectPending_mem s.items it hs).1, h4, h5,
      (MQ.selectPending_mem s.items it hs).2,
      MQ.selectPending_best s.items it hs, ?_⟩
    rw [← h2, ← h4]

/-- No row of the queue with the given id is pending. -/
def MQ.idNotPending (i : ℕ) (s : MQ.QState) : Prop :=
  ∀ it ∈ s.items, it.id = i → it.status ≠ .pending

/-- A dequeue call never turns a non-pending id pending again. -/
theorem MQ.dequeueQ_preserves_idNotPending (now : ℕ) (s : MQ.QState) (i : ℕ)
    (h : MQ.idNotPending i s) : MQ.idNotPending i (MQ.dequeueQ now s).2 := by
  simp only [MQ.dequeueQ]
  cases hs : MQ.selectPending s.items with
  | none => exact h
  | some it =>
    intro it' hit' hid
    simp only [List.mem_map] at hit'
    obtain ⟨j, hj, rfl⟩ := hit'
    by_cases hjid : j.id = it.id
    · simp only [if_pos hjid]
      simp
    · simp only [if_neg hjid] at hid ⊢
      exact h j hj hid

/-- After a dequeue call claims an id, no row with that id is pending. -/
theorem MQ.dequeueQ_claimed_idNotPending (now : ℕ) (s : MQ.QState) (i : ℕ)
    (col : MQ.EventCol) (s' : MQ.QState)
    (h : MQ.dequeueQ now s = (some (i, col), s')) : MQ.idNotPending i s' := by
  obtain ⟨it, hmem, hid, hev, hpend, hbest, hitems⟩ :=
    MQ.dequeueQ_some_spec now s i col s' h
  intro it' hit' hid'
  rw [hitems] at hit'
  simp only [List.mem_map] at hit'
  obtain ⟨j, hj, rfl⟩ := hit'
  by_cases hjid : j.id = i
  · simp only [if_pos hjid]
    simp
  · simp only [if_neg hjid] at hid'
    exact absurd hid' hjid

/-- A dequeue call only ever returns an id that had a pending row. -/
theorem MQ.dequeueQ_not_return_notPending (now : ℕ) (s : MQ.QState) (i : ℕ)
    (col : MQ.EventCol) (s' : MQ.QState)
    (h : MQ.dequeueQ now s = (some (i, col), s'))
    (hnp : MQ.idNotPending i s) : False := by
  obtain ⟨it, hmem, hid, _, hpend, _, _⟩ := MQ.dequeueQ_some_spec now s i col s' h
  exact hnp it hmem hid hpend

/-- An id with no pending row is never handed out by any later run of
dequeue calls. -/
theorem MQ.dequeueRun_not_mem (ts : List ℕ) (s : MQ.QState) (i : ℕ)
    (h : MQ.idNotPending i s) : i ∉ MQ.dequeueRun ts s := by
  induction ts generalizing s with
  | nil => simp [MQ.dequeueRun]
  | cons t ts ih =>
    simp only [MQ.dequeueRun]
    have hpres := MQ.dequeueQ_preserves_idNotPending t s i h
    cases hd : MQ.dequeueQ t s with
    | mk o s2 =>
      rw [hd] at hpres
      cases o with
      | none => exact ih s2 hpres
      | some p =>
        obtain ⟨j, c⟩ := p
        intro hmem
        rcases List.mem_cons.mp hmem with rfl | hmem2
        · exact MQ.dequeueQ_not_return_notPending t s i c s2 hd h
        · exact ih s2 hpres hmem2

/-- Ids handed out across any sequence of dequeue calls are pairwise
distinct. -/
theorem MQ.dequeueRun_nodup (ts : List ℕ) (s : MQ.QState) :
    (MQ.dequeueRun ts s).Nodup := by
  induction ts generalizing s with
  | nil => simp [MQ.dequeueRun]
  | cons t ts ih =>
    simp only [MQ.dequeueRun]
    cases hd : MQ.dequeueQ t s with
    | mk o s2 =>
      cases o with
      | none => exact ih s2
      | some p =>
        obtain ⟨j, c⟩ := p
        refine List.nodup_cons.mpr ⟨?_, ih s2⟩
        exact MQ.dequeueRun_not_mem ts s2 j
          (MQ.dequeueQ_claimed_idNotPending t s j c s2 hd)

/-- Claim C1: dequeue returns none exactly when no row is pending;
otherwise it returns the id and event of a pending row with maximal
priority and, within that priority, minimal creation time, and the new
state differs only by that row becoming processing with the claim
timestamp recorded; and across any sequence of dequeue calls no id is
ever handed out twice. -/
theorem C1_dequeue_atomic_claim (now : ℕ) (s : MQ.QState) :
    ((MQ.dequeueQ now s).1 = none ↔ ∀ it ∈ s.items, it.status ≠ .pending) ∧
    (∀ i col s', MQ.dequeueQ now s = (some (i, col), s') →
      ∃ it, it ∈ s.items ∧ it.id = i ∧ it.event = col ∧ it.status = .pending ∧
        (∀ j ∈ s.items, j.status = .pending →
          j.priority ≤ it.priority ∧
            (j.priority = it.priority → it.created_at ≤ j.created_at)) ∧
        s'.items = s.items.map (fun j =>
          if j.id = i then
            { j with status := .processing, processed_at := some now }
          else j)) ∧
    (∀ ts : List ℕ, (MQ.dequeueRun ts s).Nodup) := by
  refine ⟨?_, fun i col s' h => MQ.dequeueQ_some_spec now s i col s' h,
    fun ts => MQ.dequeueRun_nodup ts s⟩
  simp only [MQ.dequeueQ]
  cases hs : MQ.selectPending s.items with
  | none => exact iff_of_true rfl ((MQ.selectPending_eq_none_iff s.items).mp hs)
  | some it =>
    refine iff_of_false (by simp) ?_
    intro h
    exact absurd (MQ.selectPending_mem s.items it hs).2
      (h it (MQ.selectPending_mem s.items it hs).1)

/-- Three-row queue: ids 1 and 3 at priority 0, id 2 and 3 pending with
priorities 5, id 3 created later. -/
def MQ.s1w : MQ.QState :=
  { items :=
      [⟨1, .payload ⟨some 10, some 1, "a"⟩, .pending, 0, 0, none⟩,
       ⟨2, .payload ⟨some 10, some 2, "b"⟩, .pending, 5, 2, none⟩,
       ⟨3, .payload ⟨some 10, some 3, "c"⟩, .pending, 5, 1, none⟩],
    nextId := 4 }

/-- Claim C1 witness: on a concrete three-row queue the ids handed out by
four successive dequeue calls are pairwise distinct, and dequeue does not
return none while a pending row exists. -/
theorem C1_witness :
    (MQ.dequeueRun [10, 11, 12, 13] MQ.s1w).Nodup ∧
      (MQ.dequeueQ 10 MQ.s1w).1 ≠ none := by
  have h := C1_dequeue_atomic_claim 10 MQ.s1w
  refine ⟨h.2.2 [10, 11, 12, 13], ?_⟩
  intro hn
  exact h.1.mp hn ⟨1, .payload ⟨some 10, some 1, "a"⟩, .pending, 0, 0, none⟩
    (by decide) rfl
